import Mathlib

/-!
Verification development for the keyframe-animation timeline subsystem
(`fury/animation/timeline.py`).

The playback clock, scene-membership scheduling and keyframe store of the
`Timeline` class are shallowly embedded below.  Wall-clock reads
(`time.perf_counter()`) are made explicit: every operation that reads the
clock takes the current wall time `now : ℚ` as a parameter.  Python floats
are modelled as exact rationals for the clock and as real numbers for the
rotation mathematics (which goes through trigonometric functions).
-/

set_option maxHeartbeats 1000000
set_option maxRecDepth 8000

namespace Fury

/-! ## Playback clock model (`Timeline` playback state)

Fields mirror the attributes of `Timeline.__init__` that the playback
clock uses: `_last_timestamp`, `_last_started_time`, `_speed`, `_playing`,
`_loop`, `_final_timestamp`, `_length`.  Child timelines enter the clock
logic only through their final timestamps (`update_final_timestamp`), so
they are carried as the list `child_finals`.  Calls of
`update_animation(force=True)` are observable only through their side
effects; the counter `forced_updates` records each such forced call. -/

structure Timeline where
  last_timestamp : ℚ
  last_started_time : ℚ
  speed : ℚ
  playing : Bool
  loop : Bool
  final_timestamp : ℚ
  fixed_length : Option ℚ
  child_finals : List ℚ
  forced_updates : ℕ
deriving DecidableEq

/-- The value returned by the `current_timestamp` property: while playing it
is `(time.perf_counter() - self._last_started_time) * self.speed`, otherwise
the stored `_last_timestamp`. -/
def current_timestamp_read (s : Timeline) (now : ℚ) : ℚ :=
  if s.playing then (now - s.last_started_time) * s.speed else s.last_timestamp

/-- The side effect of the `current_timestamp` property getter: while playing
it writes the freshly computed value back into `_last_timestamp`. -/
def current_timestamp_touch (s : Timeline) (now : ℚ) : Timeline :=
  if s.playing then
    { s with last_timestamp := (now - s.last_started_time) * s.speed }
  else s

/-- `Timeline.seek(timestamp)`: clamps the argument into
`[0, final_timestamp]` (negative first, then past-the-end); while playing it
re-derives `_last_started_time`, otherwise it stores the clamped timestamp
and calls `update_animation(force=True)` (counted in `forced_updates`). -/
def seek (s : Timeline) (now t : ℚ) : Timeline :=
  let t := if t < 0 then 0 else if t > s.final_timestamp then s.final_timestamp else t
  if s.playing then
    { s with last_started_time := now - t / s.speed }
  else
    { s with last_timestamp := t, forced_updates := s.forced_updates + 1 }

/-- `Timeline.update_final_timestamp()`: with no fixed length, takes the max
of the cached final timestamp and the children's final timestamps (the
source computes `max([0] + [...])`, hence the `0` base); with a fixed
length, overwrites the cache with it. -/
def update_final_timestamp (s : Timeline) : Timeline :=
  match s.fixed_length with
  | none => { s with final_timestamp := max s.final_timestamp (s.child_finals.foldr max 0) }
  | some l => { s with final_timestamp := l }

/-- `Timeline.play()`: when not already playing, reads `current_timestamp`
(getter side effect included), seeks to 0 if it is at or past the final
timestamp (via the `current_timestamp` setter, which is `seek`), refreshes
the final timestamp, re-derives `_last_started_time` from `_last_timestamp`
and sets `_playing`. -/
def play (s : Timeline) (now : ℚ) : Timeline :=
  if s.playing then s
  else
    let c := current_timestamp_read s now
    let s1 := current_timestamp_touch s now
    let s2 := if c ≥ s1.final_timestamp then seek s1 now 0 else s1
    let s3 := update_final_timestamp s2
    { s3 with last_started_time := now - s3.last_timestamp / s3.speed, playing := true }

/-- `Timeline.pause()`: freezes `_last_timestamp` at the instantaneous
`current_timestamp` and clears `_playing`. -/
def pause (s : Timeline) (now : ℚ) : Timeline :=
  let c := current_timestamp_read s now
  let s1 := current_timestamp_touch s now
  { s1 with last_timestamp := c, playing := false }

/-- `Timeline.stop()`: zeroes `_last_timestamp`, clears `_playing` and calls
`update_animation(force=True)`. -/
def stop (s : Timeline) : Timeline :=
  { s with last_timestamp := 0, playing := false, forced_updates := s.forced_updates + 1 }

/-- The `speed` property setter: reads `current_timestamp` first, returns
unchanged for `speed <= 0`, otherwise stores the new speed, resets
`_last_started_time` to `now` and restores the previously read time through
the `current_timestamp` setter (which is `seek`). -/
def set_speed (s : Timeline) (now v : ℚ) : Timeline :=
  let c := current_timestamp_read s now
  let s1 := current_timestamp_touch s now
  if v ≤ 0 then s1
  else
    let s2 := { s1 with speed := v, last_started_time := now }
    seek s2 now c

/-- The clock-handling prefix of `Timeline.update_animation()` when called
with `t=None` (the per-frame tick): reads `current_timestamp` and, when it
exceeds the final timestamp, either seeks to 0 (loop) or seeks to the final
timestamp and pauses.  The pause in the non-loop branch goes through
`self.playback_panel.pause()`; the `PlaybackPanel` class is not part of this
repository's sources, and per the spec it pauses the timeline through its
`on_pause` callback, which `__init__` binds to `Timeline.pause`. -/
def update_animation_tick (s : Timeline) (now : ℚ) : Timeline :=
  let t := current_timestamp_read s now
  let s1 := current_timestamp_touch s now
  if t > s1.final_timestamp then
    if s1.loop then seek s1 now 0
    else pause (seek s1 now s1.final_timestamp) now
  else s1

/-- The `stopped` property: `not self.playing and not self._last_timestamp`
(a numeric `_last_timestamp` is falsy exactly when it is zero). -/
def stopped (s : Timeline) : Bool :=
  !s.playing && decide (s.last_timestamp = 0)

/-- The `paused` property:
`not self.playing and self._last_timestamp is not None`.  `_last_timestamp`
is initialised to `0` and every assignment to it stores a number, so the
`is not None` conjunct always holds; the model's field is accordingly total
and the conjunct is the constant `true`. -/
def paused (s : Timeline) : Bool :=
  !s.playing && true

/-! Concrete playback states used by witnesses and counterexamples. -/

/-- Playing, looping, speed 1, started at wall time 0, final timestamp 10:
at wall time 12 the animation clock reads 12, past the final timestamp. -/
def overshoot_state : Timeline := ⟨0, 0, 1, true, true, 10, none, [], 0⟩

/-- Playing (no loop), speed 1, started at wall time 0, final timestamp 10. -/
def playing_state : Timeline := ⟨0, 0, 1, true, false, 10, none, [], 0⟩

/-- Paused mid-animation: `_last_timestamp = 5`, final timestamp 10. -/
def paused_mid_state : Timeline := ⟨5, 0, 1, false, false, 10, none, [], 0⟩

/-- Paused past the end: `_last_timestamp = 12`, final timestamp 10. -/
def paused_end_state : Timeline := ⟨12, 0, 1, false, false, 10, none, [], 0⟩

/-! ## Scene-membership model

`Timeline.is_inside_scene_at`, `handle_scene_event`, `add_to_scene` and the
scene-event portion of `update_animation(t)`.  When `update_animation` is
called with an explicit `t`, `handle_scene_event` runs unconditionally
(before the `self.playing or force` gate), so membership transitions fire on
every update call.  The external scene object is represented by the flag
`scene_set` (`self._scene is not None`); the actual `add_to_scene` /
`remove_from_scene` calls on the scene are the reported events. -/

structure SceneTimeline where
  add_time : ℚ
  remove_time : Option ℚ
  scene_set : Bool
  added_to_scene : Bool
deriving DecidableEq

/-- `Timeline.is_inside_scene_at(timestamp)`: `False` when a removal time is
set and `timestamp` has reached it, else `True` when `timestamp` has reached
the add time, else `False`. -/
def is_inside_scene_at (s : SceneTimeline) (t : ℚ) : Bool :=
  if (match s.remove_time with
      | some r => decide (r ≤ t)
      | none => false) then false
  else if s.add_time ≤ t then true
  else false

/-- `Timeline.handle_scene_event(in_scene)`: with a scene attached, adds the
timeline to the scene when `in_scene` holds and it is not yet added, removes
it when `in_scene` fails and it is still added; otherwise does nothing.
The two booleans report whether an add and a remove event fired. -/
def handle_scene_event (s : SceneTimeline) (in_scene : Bool) :
    SceneTimeline × Bool × Bool :=
  if s.scene_set then
    if in_scene && !s.added_to_scene then
      ({ s with added_to_scene := true }, true, false)
    else if !in_scene && s.added_to_scene then
      ({ s with added_to_scene := false }, false, true)
    else (s, false, false)
  else (s, false, false)

/-- The scene-event portion of `update_animation(t)` with an explicit `t`:
`handle_scene_event(self.is_inside_scene_at(t))`. -/
def update_scene_at (s : SceneTimeline) (t : ℚ) : SceneTimeline × Bool × Bool :=
  handle_scene_event s (is_inside_scene_at s t)

/-- `Timeline.add_to_scene(ren)`: records the scene, marks the timeline as
added and runs `update_animation(force=True)`, whose scene-event part fires
at the current timestamp `cur`. -/
def add_to_scene (s : SceneTimeline) (cur : ℚ) : SceneTimeline × Bool × Bool :=
  update_scene_at { s with scene_set := true, added_to_scene := true } cur

/-- Runs `update_animation` at each timestamp of the list in order,
collecting the timestamps at which an add event and a remove event fired. -/
def run_updates (s : SceneTimeline) : List ℚ → SceneTimeline × List ℚ × List ℚ
  | [] => (s, [], [])
  | t :: ts =>
    let r := update_scene_at s t
    let rest := run_updates r.1 ts
    (rest.1, (if r.2.1 then [t] else []) ++ rest.2.1,
      (if r.2.2 then [t] else []) ++ rest.2.2)

/-- A freshly constructed timeline (where `_added_to_scene = True` and
`_add_to_scene_time = 0`) after `add_to_scene_at(2)` and
`remove_from_scene_at(5)`, before any scene is attached. -/
def scene_init : SceneTimeline := ⟨2, some 5, false, true⟩

/-- `scene_init` after `add_to_scene` at current timestamp 0 (a fresh,
non-playing timeline reads `current_timestamp = 0`). -/
def scene_ready : SceneTimeline := (add_to_scene scene_init 0).1

/-! ## Keyframe store model (`set_keyframe`, `set_rotation`, `get_rotation`)

Timestamps are rationals; keyframe values are lists of reals (Python floats
holding trigonometric quantities).  The two dict namespaces
(`keyframes['attribs']` / `keyframes['camera']`) and the interpolator dicts
are association lists; creating an interpolator is recorded by adding the
attribute name to the namespace's interpolator list (the default
`LinearInterpolator` is the only interpolator used here, and re-`setup()` of
an existing interpolator has no observable state in this model).
`update_animation(force=True)` calls are counted by `forced_updates`;
`warnings.warn` calls by `warn_count`.  `update_motion_path` only redraws a
debug actor and touches none of the state modelled here. -/

def alist_lookup {α β : Type} [DecidableEq α] (k : α) : List (α × β) → Option β
  | [] => none
  | p :: rest => if p.1 = k then some p.2 else alist_lookup k rest

def alist_upsert {α β : Type} [DecidableEq α] (k : α) (v : β) :
    List (α × β) → List (α × β)
  | [] => [(k, v)]
  | p :: rest => if p.1 = k then (k, v) :: rest else p :: alist_upsert k v rest

structure Keyframe where
  value : List ℝ
  pre_cp : Option (List ℝ)
  post_cp : Option (List ℝ)

structure KFData where
  attribs : List (String × List (ℚ × Keyframe))
  camera : List (String × List (ℚ × Keyframe))
  attrib_interps : List String
  camera_interps : List String
  is_camera_animated : Bool
  final_timestamp : ℚ
  forced_updates : ℕ
  warn_count : ℕ

/-- `Timeline.set_keyframe(attrib, timestamp, value, pre_cp, post_cp,
is_camera)`: picks the namespace, inserts/overwrites the sample, creates the
channel's `LinearInterpolator` on the first keyframe for that attribute
(otherwise re-runs its `setup()`), raises the cached final timestamp when
the new timestamp exceeds it, and forces an animation update when the
timestamp is positive.  (The playback-panel branch is absent: the modelled
timeline has no panel.) -/
def set_keyframe (s : KFData) (attrib : String) (t : ℚ) (value : List ℝ)
    (pre_cp post_cp : Option (List ℝ)) (is_camera : Bool) : KFData :=
  let kf : Keyframe := ⟨value, pre_cp, post_cp⟩
  let ns := if is_camera then s.camera else s.attribs
  let frames := alist_upsert t kf ((alist_lookup attrib ns).getD [])
  let ns' := alist_upsert attrib frames ns
  let interps := if is_camera then s.camera_interps else s.attrib_interps
  let interps' := if interps.contains attrib then interps else attrib :: interps
  let final' := if s.final_timestamp < t then t else s.final_timestamp
  let forced' := if 0 < t then s.forced_updates + 1 else s.forced_updates
  if is_camera then
    { s with camera := ns', camera_interps := interps', is_camera_animated := true,
             final_timestamp := final', forced_updates := forced' }
  else
    { s with attribs := ns', attrib_interps := interps',
             final_timestamp := final', forced_updates := forced' }

/-- The stored keyframe of attribute `attrib` at timestamp `t` in the given
namespace. -/
def lookup_keyframe (s : KFData) (is_camera : Bool) (attrib : String) (t : ℚ) :
    Option Keyframe :=
  alist_lookup t ((alist_lookup attrib (if is_camera then s.camera else s.attribs)).getD [])

/-- `Timeline.is_interpolatable(attrib, is_camera)`: whether the namespace's
interpolator dict has an entry for the attribute. -/
def is_interpolatable (s : KFData) (attrib : String) (is_camera : Bool) : Bool :=
  (if is_camera then s.camera_interps else s.attrib_interps).contains attrib

/-- A `Timeline` fresh out of `__init__`: empty stores, final timestamp 0. -/
def empty_kfdata : KFData := ⟨[], [], [], [], false, 0, 0, 0⟩

/-! ### Rotation mathematics

`set_rotation` normalizes 3-component Euler-degree input with
`scipy.spatial.transform.Rotation.from_euler('zxy', rotation[[2,0,1]],
degrees=True).as_quat()`, and `get_rotation` reads back through
`Rotation.from_quat(q).as_euler('zxy', degrees=True)[[1,2,0]]`.  scipy is an
external collaborator; its rotation algebra is embedded below as exact real
mathematics.  Quaternions follow scipy's scalar-last component order
`(x, y, z, w)`; a lowercase (extrinsic) axis sequence `zxy` with angles
`(az, ax, ay)` denotes the rotation `R_y(ay) * R_x(ax) * R_z(az)` about the
fixed frame axes. -/

structure Quat where
  x : ℝ
  y : ℝ
  z : ℝ
  w : ℝ

/-- Hamilton product of quaternions in scalar-last component order. -/
def qmul (a b : Quat) : Quat :=
  ⟨a.w * b.x + a.x * b.w + a.y * b.z - a.z * b.y,
   a.w * b.y - a.x * b.z + a.y * b.w + a.z * b.x,
   a.w * b.z + a.x * b.y - a.y * b.x + a.z * b.w,
   a.w * b.w - a.x * b.x - a.y * b.y - a.z * b.z⟩

noncomputable def qx (θ : ℝ) : Quat := ⟨Real.sin (θ / 2), 0, 0, Real.cos (θ / 2)⟩

noncomputable def qy (θ : ℝ) : Quat := ⟨0, Real.sin (θ / 2), 0, Real.cos (θ / 2)⟩

noncomputable def qz (θ : ℝ) : Quat := ⟨0, 0, Real.sin (θ / 2), Real.cos (θ / 2)⟩

noncomputable def deg_to_rad (d : ℝ) : ℝ := d * Real.pi / 180

noncomputable def rad_to_deg (r : ℝ) : ℝ := r * 180 / Real.pi

/-- `Rotation.from_euler('zxy', [az, ax, ay], degrees=True).as_quat()`:
extrinsic rotations applied z first, then x, then y. -/
noncomputable def from_euler_zxy_deg (az ax ay : ℝ) : Quat :=
  qmul (qy (deg_to_rad ay)) (qmul (qx (deg_to_rad ax)) (qz (deg_to_rad az)))

/-- The write-time normalization of 3-component Euler-degree rotation input
`[e0, e1, e2]` (source: `from_euler('zxy', rotation[[2,0,1]],
degrees=True).as_quat()`, so the z-angle is `e2`, the x-angle `e0` and the
y-angle `e1`). -/
noncomputable def euler_deg_to_quat_list (e0 e1 e2 : ℝ) : List ℝ :=
  let q := from_euler_zxy_deg e2 e0 e1
  [q.x, q.y, q.z, q.w]

/-- `Timeline.set_rotation(timestamp, rotation)`: 4 flattened components are
stored as a quaternion keyframe, 3 are normalized to a quaternion first, any
other arity warns and skips (state otherwise untouched). -/
noncomputable def set_rotation (s : KFData) (t : ℚ) (rotation : List ℝ) : KFData :=
  match rotation with
  | [x, y, z, w] => set_keyframe s "rotation" t [x, y, z, w] none none false
  | [e0, e1, e2] =>
    set_keyframe s "rotation" t (euler_deg_to_quat_list e0 e1 e2) none none false
  | _ => { s with warn_count := s.warn_count + 1 }

/-- Two-argument arctangent on `(y, x)`, the convention used by rotation
libraries for Euler-angle extraction. -/
noncomputable def atan2 (y x : ℝ) : ℝ :=
  if 0 < x then Real.arctan (y / x)
  else if x < 0 then
    (if 0 ≤ y then Real.arctan (y / x) + Real.pi else Real.arctan (y / x) - Real.pi)
  else
    (if 0 < y then Real.pi / 2 else if y < 0 then -(Real.pi / 2) else 0)

/-- Euclidean norm of a quaternion (scipy `from_quat` normalizes its input
on construction). -/
noncomputable def qnorm (x y z w : ℝ) : ℝ := Real.sqrt (x * x + y * y + z * z + w * w)

/-- Extrinsic-zxy Euler angles `(az, ax, ay)` in radians of a unit
quaternion, extracted from the rotation-matrix entries
`R10 = 2(xy+zw)`, `R11 = 1-2(x²+z²)`, `R12 = 2(yz-xw)`,
`R02 = 2(xz+yw)`, `R22 = 1-2(x²+y²)` in the non-degenerate case
(`az = atan2 R10 R11`, `ax = arcsin (-R12)`, `ay = atan2 R02 R22`). -/
noncomputable def quat_to_euler_zxy_rad (x y z w : ℝ) : ℝ × ℝ × ℝ :=
  (atan2 (2 * (x * y + z * w)) (1 - 2 * (x * x + z * z)),
   Real.arcsin (-(2 * (y * z - x * w))),
   atan2 (2 * (x * z + y * w)) (1 - 2 * (x * x + y * y)))

/-- `Rotation.from_quat([x,y,z,w]).as_euler('zxy', degrees=True)[[1,2,0]]`:
normalizes the quaternion, extracts the extrinsic-zxy angles, and reorders
them by `[[1,2,0]]` into `[x-angle, y-angle, z-angle]` in degrees. -/
noncomputable def quat_to_euler_zxy_deg (x y z w : ℝ) : List ℝ :=
  let n := qnorm x y z w
  let e := quat_to_euler_zxy_rad (x / n) (y / n) (z / n) (w / n)
  [rad_to_deg e.2.1, rad_to_deg e.2.2, rad_to_deg e.1]

/-! ### Interpolation (spec-modelled) -/

def insert_by_time (p : ℚ × Keyframe) :
    List (ℚ × Keyframe) → List (ℚ × Keyframe)
  | [] => [p]
  | q :: rest => if p.1 ≤ q.1 then p :: q :: rest else q :: insert_by_time p rest

def sort_by_time : List (ℚ × Keyframe) → List (ℚ × Keyframe)
  | [] => []
  | p :: rest => insert_by_time p (sort_by_time rest)

/-- Greatest keyframe at or before `t` in a time-sorted list. -/
def floor_kf (t : ℚ) : List (ℚ × Keyframe) → Option (ℚ × Keyframe)
  | [] => none
  | p :: rest => if t < p.1 then none else some ((floor_kf t rest).getD p)

/-- Least keyframe at or after `t` in a time-sorted list. -/
def ceil_kf (t : ℚ) : List (ℚ × Keyframe) → Option (ℚ × Keyframe)
  | [] => none
  | p :: rest => if t ≤ p.1 then some p else ceil_kf t rest

noncomputable def lerp_list (v0 v1 : List ℝ) (τ : ℝ) : List ℝ :=
  List.zipWith (fun a b => a + τ * (b - a)) v0 v1

/-- Modelled from the spec: `LinearInterpolator.interpolate(t)`
(`fury/animation/interpolator.py` is imported by `timeline.py` but is not
among the sources).  Per spec §4.2: the two bracketing samples of the sorted
view are found, clamping to the first/last sample outside the authored
range; the value is `lerp(v0, v1, τ)` with `τ = (t - t0)/(t1 - t0)` and
`τ = 0` when `t0 == t1` (in particular a single keyframe is returned for
any query time, and an authored timestamp returns its authored value);
zero keyframes are not interpolatable (`none`). -/
noncomputable def interpolate_linear (kfs : List (ℚ × Keyframe)) (t : ℚ) :
    Option (List ℝ) :=
  match sort_by_time kfs with
  | [] => none
  | p :: rest =>
    let sorted := p :: rest
    let lo := (floor_kf t sorted).getD p
    let hi := (ceil_kf t sorted).getD (sorted.getLast?.getD p)
    if lo.1 = hi.1 then some lo.2.value
    else some (lerp_list lo.2.value hi.2.value (((t - lo.1) / (hi.1 - lo.1) : ℚ) : ℝ))

/-- `Timeline.get_value(attrib, timestamp)`: interpolates the attribute's
channel at the timestamp; a channel with no interpolator cannot be queried
(`none`).  The channel's interpolator is the default `LinearInterpolator`
(no `set_interpolator` call is modelled). -/
noncomputable def get_value (s : KFData) (attrib : String) (t : ℚ) : Option (List ℝ) :=
  if s.attrib_interps.contains attrib then
    interpolate_linear ((alist_lookup attrib s.attribs).getD []) t
  else none

/-- `Timeline.get_rotation(t)`: interpolates the stored quaternion and
converts it back to Euler degrees (`from_quat` then
`as_euler('zxy', degrees=True)[[1,2,0]]`). -/
noncomputable def get_rotation (s : KFData) (t : ℚ) : Option (List ℝ) :=
  match get_value s "rotation" t with
  | some [x, y, z, w] => some (quat_to_euler_zxy_deg x y z w)
  | _ => none

/-! ## Helper lemmas -/

theorem clamp_if_eq (f t : ℚ) (hf : 0 ≤ f) :
    (if t < 0 then 0 else if t > f then f else t) = max 0 (min t f) := by
  rw [max_def, min_def]
  split_ifs <;> linarith

theorem is_inside_handle (s : SceneTimeline) (b : Bool) (t : ℚ) :
    is_inside_scene_at (handle_scene_event s b).1 t = is_inside_scene_at s t := by
  unfold handle_scene_event
  split_ifs <;> rfl

theorem handle_scene_event_added (s : SceneTimeline) (b : Bool)
    (h : s.scene_set = true) :
    (handle_scene_event s b).1.added_to_scene = b := by
  unfold handle_scene_event
  cases b <;> cases ha : s.added_to_scene <;> simp [h, ha]

theorem handle_scene_event_scene_set (s : SceneTimeline) (b : Bool) :
    (handle_scene_event s b).1.scene_set = s.scene_set := by
  unfold handle_scene_event
  split_ifs <;> rfl

theorem uft_last_timestamp (s : Timeline) :
    (update_final_timestamp s).last_timestamp = s.last_timestamp := by
  unfold update_final_timestamp
  cases s.fixed_length <;> rfl

theorem uft_speed (s : Timeline) :
    (update_final_timestamp s).speed = s.speed := by
  unfold update_final_timestamp
  cases s.fixed_length <;> rfl

theorem uft_forced_updates (s : Timeline) :
    (update_final_timestamp s).forced_updates = s.forced_updates := by
  unfold update_final_timestamp
  cases s.fixed_length <;> rfl

theorem seek_not_playing_eq (s : Timeline) (now t : ℚ) (hp : s.playing = false)
    (h0 : 0 ≤ t) (hle : t ≤ s.final_timestamp) :
    seek s now t =
      { s with last_timestamp := t, forced_updates := s.forced_updates + 1 } := by
  unfold seek
  rw [if_neg (not_lt.mpr h0), if_neg (not_lt.mpr hle)]
  simp [hp]

theorem seek_playing_eq (s : Timeline) (now t : ℚ) (hp : s.playing = true)
    (h0 : 0 ≤ t) (hle : t ≤ s.final_timestamp) :
    seek s now t = { s with last_started_time := now - t / s.speed } := by
  unfold seek
  rw [if_neg (not_lt.mpr h0), if_neg (not_lt.mpr hle)]
  simp [hp]

theorem seek_playing_read (s : Timeline) (now t : ℚ) (hp : s.playing = true)
    (hs : 0 < s.speed) (h0 : 0 ≤ t) (hle : t ≤ s.final_timestamp) :
    current_timestamp_read (seek s now t) now = t := by
  rw [seek_playing_eq s now t hp h0 hle]
  simp [current_timestamp_read, hp]
  exact div_mul_cancel₀ _ (ne_of_gt hs)

theorem set_speed_pos_eq (s : Timeline) (now v : ℚ) (hv : 0 < v) :
    set_speed s now v =
      seek ⟨(current_timestamp_touch s now).last_timestamp, now, v,
        (current_timestamp_touch s now).playing, (current_timestamp_touch s now).loop,
        (current_timestamp_touch s now).final_timestamp,
        (current_timestamp_touch s now).fixed_length,
        (current_timestamp_touch s now).child_finals,
        (current_timestamp_touch s now).forced_updates⟩
        now (current_timestamp_read s now) := by
  unfold set_speed
  rw [if_neg (not_le.mpr hv)]

theorem alist_lookup_upsert_self {α β : Type} [DecidableEq α] (k : α) (v : β)
    (l : List (α × β)) : alist_lookup k (alist_upsert k v l) = some v := by
  induction l with
  | nil => simp [alist_upsert, alist_lookup]
  | cons p rest ih =>
    by_cases h : p.1 = k
    · simp [alist_upsert, alist_lookup, h]
    · simp [alist_upsert, alist_lookup, h, ih]

theorem contains_after_create (l : List String) (a : String) :
    (if l.contains a then l else a :: l).contains a = true := by
  by_cases h : a ∈ l <;> simp [h]

theorem handle_scene_event_stable (s : SceneTimeline) (b : Bool)
    (h : s.scene_set = true → s.added_to_scene = b) :
    (handle_scene_event s b).2 = (false, false) := by
  unfold handle_scene_event
  cases hs : s.scene_set
  · simp
  · cases b <;> simp [h hs]

theorem seek_zero_read (s : Timeline) (now : ℚ) (hp : s.playing = true)
    (hf : 0 ≤ s.final_timestamp) :
    current_timestamp_read (seek s now 0) now = 0 := by
  unfold seek
  rw [if_neg (lt_irrefl 0), if_neg (not_lt.mpr hf)]
  simp [hp, current_timestamp_read]

/-! ## Claim theorems -/

/-- C5: `is_inside_scene_at(t)` returns `True` iff `entry ≤ t` and, when an
exit time is set, `t < exit`; with no exit time, membership holds for every
`t ≥ entry`. -/
theorem is_inside_scene_at_spec (s : SceneTimeline) (t : ℚ) :
    is_inside_scene_at s t = true ↔
      (s.add_time ≤ t ∧ ∀ r, s.remove_time = some r → t < r) := by
  cases h : s.remove_time with
  | none => simp [is_inside_scene_at, h]
  | some r =>
    simp only [is_inside_scene_at, h]
    constructor
    · intro hin
      by_cases hr : r ≤ t
      · simp [hr] at hin
      · simp [hr] at hin
        exact ⟨hin, by intro r2 h2; cases h2; linarith [not_le.mp hr]⟩
    · rintro ⟨ha, hr⟩
      have := hr r rfl
      simp [not_le.mpr this, ha]

/-- C10: the `paused` property returns `True` whenever the timeline is not
playing (its `_last_timestamp is not None` conjunct always holds, the field
being initialised to `0` and only ever assigned numbers), so `stopped` and
`paused` are not mutually exclusive: after `stop()`, and after `pause()` at
timestamp 0 (e.g. following a `stop()`), both properties return `True`. -/
theorem stopped_paused_not_exclusive (s : Timeline) (now : ℚ) :
    paused s = !s.playing ∧
    stopped (stop s) = true ∧ paused (stop s) = true ∧
    stopped (pause (stop s) now) = true ∧ paused (pause (stop s) now) = true := by
  refine ⟨?_, ?_, ?_, ?_, ?_⟩ <;>
    simp [paused, stopped, stop, pause, current_timestamp_read,
      current_timestamp_touch]

/-- C2: with entry time 2 and exit time 5, updating at `t = 0..6` (after the
timeline has been attached to a scene, which runs one forced update at the
then-current timestamp 0) fires the scene-add transition exactly once, at
`t = 2`, and the scene-remove transition exactly once, at `t = 5`; and in
general a repeated update at the same timestamp never re-fires a
transition (edge-triggered, not level-triggered). -/
theorem scene_transitions_fire_once :
    (run_updates scene_ready [0, 1, 2, 3, 4, 5, 6]).2.1 = [2] ∧
    (run_updates scene_ready [0, 1, 2, 3, 4, 5, 6]).2.2 = [5] ∧
    ∀ (s : SceneTimeline) (t : ℚ),
      (update_scene_at (update_scene_at s t).1 t).2 = (false, false) := by
  refine ⟨by decide, by decide, ?_⟩
  intro s t
  unfold update_scene_at
  rw [is_inside_handle]
  apply handle_scene_event_stable
  intro hset
  have hscene : s.scene_set = true := by
    rw [← handle_scene_event_scene_set s (is_inside_scene_at s t)]
    exact hset
  exact handle_scene_event_added s _ hscene

/-- C1 counterexample: with `loop = true`, `final_timestamp = 10`, playing
from wall time 0 at speed 1, the clock reads 12 at wall time 12; the update
then wraps `current_time` to `0`, not to `2` as the claim states. -/
theorem loop_overshoot_counterexample :
    current_timestamp_read overshoot_state 12 = 12 ∧
    current_timestamp_read (update_animation_tick overshoot_state 12) 12 = 0 ∧
    ¬ current_timestamp_read (update_animation_tick overshoot_state 12) 12 = 2 := by
  refine ⟨by norm_num [overshoot_state, current_timestamp_read], ?_, ?_⟩ <;>
    norm_num [overshoot_state, update_animation_tick, current_timestamp_touch,
      current_timestamp_read, seek]

/-- C1 (amended): with loop enabled, while playing, whenever the animation
clock has crossed the final timestamp, the update wraps `current_time` to
`0` (the overshoot past the final timestamp is discarded, and the time is
not clamped to the final timestamp). -/
theorem loop_overshoot_wraps_to_zero (s : Timeline) (now : ℚ)
    (hp : s.playing = true) (hl : s.loop = true) (hs : 0 < s.speed)
    (hf : 0 ≤ s.final_timestamp)
    (hover : s.final_timestamp < current_timestamp_read s now) :
    current_timestamp_read (update_animation_tick s now) now = 0 := by
  have hover2 : (now - s.last_started_time) * s.speed > s.final_timestamp := by
    simpa [current_timestamp_read, hp] using hover
  simp only [update_animation_tick, current_timestamp_touch, current_timestamp_read,
    hp, hl, if_true]
  rw [if_pos hover2]
  exact seek_zero_read _ now rfl hf

/-- Witness for the amended C1 at the concrete scenario of the claim. -/
theorem loop_overshoot_wraps_to_zero_witness :
    overshoot_state.playing = true ∧ overshoot_state.loop = true ∧
    (0 : ℚ) < overshoot_state.speed ∧ (0 : ℚ) ≤ overshoot_state.final_timestamp ∧
    overshoot_state.final_timestamp < current_timestamp_read overshoot_state 12 ∧
    current_timestamp_read (update_animation_tick overshoot_state 12) 12 = 0 :=
  ⟨rfl, rfl, by norm_num [overshoot_state], by norm_num [overshoot_state],
    by norm_num [overshoot_state, current_timestamp_read],
    loop_overshoot_wraps_to_zero overshoot_state 12 rfl rfl
      (by norm_num [overshoot_state]) (by norm_num [overshoot_state])
      (by norm_num [overshoot_state, current_timestamp_read])⟩

/-- C3: `seek(t)` first clamps `t` to `[0, final_timestamp]`; while playing
it re-derives the start reference so that a clock read at the same instant
yields the clamped `t` (and forces no update); while not playing it stores
the clamped `t` as `_last_timestamp` and forces exactly one animation
update. -/
theorem seek_spec (s : Timeline) (now t : ℚ) (hs : 0 < s.speed)
    (hf : 0 ≤ s.final_timestamp) :
    0 ≤ max 0 (min t s.final_timestamp) ∧
    max 0 (min t s.final_timestamp) ≤ s.final_timestamp ∧
    (s.playing = true →
      current_timestamp_read (seek s now t) now = max 0 (min t s.final_timestamp) ∧
      (seek s now t).forced_updates = s.forced_updates) ∧
    (s.playing = false →
      (seek s now t).last_timestamp = max 0 (min t s.final_timestamp) ∧
      (seek s now t).forced_updates = s.forced_updates + 1) := by
  refine ⟨le_max_left 0 _, max_le hf (min_le_right t _), ?_, ?_⟩
  · intro hp
    unfold seek
    rw [clamp_if_eq _ _ hf]
    constructor
    · simp [hp, current_timestamp_read]
      exact div_mul_cancel₀ _ (ne_of_gt hs)
    · simp [hp]
  · intro hp
    unfold seek
    rw [clamp_if_eq _ _ hf]
    simp [hp]

/-- Witness for C3: a playing timeline seeking to `-3` (clamped to `0`) and
a paused timeline seeking to `15` past its final timestamp `10` (clamped,
stored, and one update forced). -/
theorem seek_spec_witness :
    (0 : ℚ) < playing_state.speed ∧ (0 : ℚ) ≤ playing_state.final_timestamp ∧
    playing_state.playing = true ∧
    current_timestamp_read (seek playing_state 7 (-3)) 7 = 0 ∧
    (0 : ℚ) < paused_mid_state.speed ∧
    (0 : ℚ) ≤ paused_mid_state.final_timestamp ∧
    paused_mid_state.playing = false ∧
    (seek paused_mid_state 7 15).last_timestamp = 10 ∧
    (seek paused_mid_state 7 15).forced_updates = paused_mid_state.forced_updates + 1 := by
  refine ⟨by norm_num [playing_state], by norm_num [playing_state], rfl, ?_,
    by norm_num [paused_mid_state], by norm_num [paused_mid_state], rfl, ?_, ?_⟩
  · have h := ((seek_spec playing_state 7 (-3) (by norm_num [playing_state])
      (by norm_num [playing_state])).2.2.1 rfl).1
    simpa [playing_state] using h
  · have h := ((seek_spec paused_mid_state 7 15 (by norm_num [paused_mid_state])
      (by norm_num [paused_mid_state])).2.2.2 rfl).1
    simpa [paused_mid_state] using h
  · exact ((seek_spec paused_mid_state 7 15 (by norm_num [paused_mid_state])
      (by norm_num [paused_mid_state])).2.2.2 rfl).2

/-- C4 counterexample: setting a strictly positive speed does *not* always
preserve the observable current time: a playing timeline whose clock has
overshot the final timestamp (`current_time = 12`, final 10) reads `10`
right after `speed := 2`, because the setter restores the time through
`seek`, which clamps. -/
theorem speed_preserve_counterexample :
    (0 : ℚ) < 2 ∧
    current_timestamp_read playing_state 12 = 12 ∧
    current_timestamp_read (set_speed playing_state 12 2) 12 = 10 ∧
    ¬ current_timestamp_read (set_speed playing_state 12 2) 12 =
        current_timestamp_read playing_state 12 := by
  refine ⟨by norm_num, by norm_num [playing_state, current_timestamp_read], ?_, ?_⟩ <;>
    norm_num [playing_state, set_speed, current_timestamp_touch,
      current_timestamp_read, seek]

/-- C4 (amended): setting `speed ≤ 0` is ignored without raising (stored
speed and observable current time unchanged); setting a strictly positive
speed stores it and preserves the observable current time provided that
time lies within `[0, final_timestamp]` (otherwise the internal `seek`
clamps it into that interval). -/
theorem speed_setter_spec (s : Timeline) (now v : ℚ) :
    (v ≤ 0 →
      (set_speed s now v).speed = s.speed ∧
      current_timestamp_read (set_speed s now v) now = current_timestamp_read s now) ∧
    (0 < v → 0 ≤ current_timestamp_read s now →
      current_timestamp_read s now ≤ s.final_timestamp →
      (set_speed s now v).speed = v ∧
      current_timestamp_read (set_speed s now v) now = current_timestamp_read s now) := by
  constructor
  · intro hv
    unfold set_speed
    cases hp : s.playing <;>
      simp [hv, current_timestamp_touch, current_timestamp_read, hp]
  · intro hv h0 hle
    rw [set_speed_pos_eq s now v hv]
    cases hp : s.playing
    · have ht : current_timestamp_touch s now = s := by
        simp [current_timestamp_touch, hp]
      have hr : current_timestamp_read s now = s.last_timestamp := by
        simp [current_timestamp_read, hp]
      rw [hr] at h0 hle
      rw [ht, hr]
      rw [seek_not_playing_eq
        ⟨s.last_timestamp, now, v, s.playing, s.loop, s.final_timestamp,
          s.fixed_length, s.child_finals, s.forced_updates⟩ now s.last_timestamp
        hp h0 hle]
      exact ⟨rfl, by simp [current_timestamp_read, hp]⟩
    · constructor
      · rw [seek_playing_eq _ now _ (by simp [current_timestamp_touch, hp]) h0
          (by simpa [current_timestamp_touch, hp] using hle)]
      · rw [seek_playing_read _ now _ (by simp [current_timestamp_touch, hp])
          (by simpa using hv) h0
          (by simpa [current_timestamp_touch, hp] using hle)]

/-- Witness for the amended C4: ignoring `speed := -1` and preserving
`current_time = 4` across `speed := 2` on a playing timeline. -/
theorem speed_setter_spec_witness :
    ((-1 : ℚ) ≤ 0 ∧
      (set_speed playing_state 4 (-1)).speed = playing_state.speed ∧
      current_timestamp_read (set_speed playing_state 4 (-1)) 4 =
        current_timestamp_read playing_state 4) ∧
    ((0 : ℚ) < 2 ∧ (0 : ℚ) ≤ current_timestamp_read playing_state 4 ∧
      current_timestamp_read playing_state 4 ≤ playing_state.final_timestamp ∧
      (set_speed playing_state 4 2).speed = 2 ∧
      current_timestamp_read (set_speed playing_state 4 2) 4 =
        current_timestamp_read playing_state 4) :=
  ⟨⟨by norm_num,
    (speed_setter_spec playing_state 4 (-1)).1 (by norm_num)⟩,
   ⟨by norm_num, by norm_num [playing_state, current_timestamp_read],
    by norm_num [playing_state, current_timestamp_read],
    (speed_setter_spec playing_state 4 2).2 (by norm_num)
      (by norm_num [playing_state, current_timestamp_read])
      (by norm_num [playing_state, current_timestamp_read])⟩⟩

/-- C6: `play()` on a non-playing timeline transitions to Playing and
captures a start reference such that every clock read satisfies
`current_time = (now - start_ref) * speed`; a clock read at the instant of
the call resumes from the stored timestamp, except that when the stored
timestamp is at or past the final timestamp the call first seeks to 0
(forcing one update) so playback restarts from the beginning. -/
theorem play_spec (s : Timeline) (now : ℚ) (hp : s.playing = false)
    (hs : 0 < s.speed) (hf : 0 ≤ s.final_timestamp) :
    (play s now).playing = true ∧
    (∀ n2 : ℚ, current_timestamp_read (play s now) n2 =
      (n2 - (play s now).last_started_time) * (play s now).speed) ∧
    current_timestamp_read (play s now) now =
      (if s.final_timestamp ≤ s.last_timestamp then 0 else s.last_timestamp) ∧
    (s.final_timestamp ≤ s.last_timestamp →
      (play s now).forced_updates = s.forced_updates + 1) := by
  have htouch : current_timestamp_touch s now = s := by
    simp [current_timestamp_touch, hp]
  have hread : current_timestamp_read s now = s.last_timestamp := by
    simp [current_timestamp_read, hp]
  have hseek0 : seek s now 0 =
      { s with last_timestamp := 0, forced_updates := s.forced_updates + 1 } := by
    unfold seek
    rw [if_neg (lt_irrefl 0), if_neg (not_lt.mpr hf)]
    simp [hp]
  simp only [play, hp, Bool.false_eq_true, if_false, htouch, hread]
  rcases le_or_lt s.final_timestamp s.last_timestamp with hge | hlt
  · rw [if_pos hge, hseek0]
    refine ⟨trivial, fun n2 => rfl, ?_, fun _ => ?_⟩
    · rw [if_pos hge]
      simp only [current_timestamp_read, if_true]
      rw [uft_last_timestamp, uft_speed]
      simp
    · simp [uft_forced_updates]
  · rw [if_neg (not_le.mpr hlt)]
    refine ⟨trivial, fun n2 => rfl, ?_, fun h => absurd h (not_le.mpr hlt)⟩
    rw [if_neg (not_le.mpr hlt)]
    simp only [current_timestamp_read, if_true]
    rw [uft_last_timestamp, uft_speed]
    rw [sub_sub_cancel, div_mul_cancel₀ _ (ne_of_gt hs)]

/-- Witness for C6: resuming from a mid-animation pause at timestamp 5, and
restarting from 0 when played at a stored timestamp 12 past the final
timestamp 10. -/
theorem play_spec_witness :
    paused_mid_state.playing = false ∧ (0 : ℚ) < paused_mid_state.speed ∧
    (0 : ℚ) ≤ paused_mid_state.final_timestamp ∧
    (play paused_mid_state 100).playing = true ∧
    current_timestamp_read (play paused_mid_state 100) 100 = 5 ∧
    paused_end_state.playing = false ∧
    current_timestamp_read (play paused_end_state 100) 100 = 0 ∧
    (play paused_end_state 100).forced_updates =
      paused_end_state.forced_updates + 1 := by
  refine ⟨rfl, by norm_num [paused_mid_state], by norm_num [paused_mid_state],
    (play_spec paused_mid_state 100 rfl (by norm_num [paused_mid_state])
      (by norm_num [paused_mid_state])).1, ?_, rfl, ?_, ?_⟩
  · have h := (play_spec paused_mid_state 100 rfl (by norm_num [paused_mid_state])
      (by norm_num [paused_mid_state])).2.2.1
    simpa [paused_mid_state] using h
  · have h := (play_spec paused_end_state 100 rfl (by norm_num [paused_end_state])
      (by norm_num [paused_end_state])).2.2.1
    simpa [paused_end_state] using h
  · exact (play_spec paused_end_state 100 rfl (by norm_num [paused_end_state])
      (by norm_num [paused_end_state])).2.2.2 (by norm_num [paused_end_state])

theorem if_lt_eq_max (a b : ℚ) : (if a < b then b else a) = max a b := by
  rcases le_or_lt b a with h | h
  · rw [if_neg (not_lt.mpr h), max_eq_left h]
  · rw [if_pos h, max_eq_right h.le]

theorem if_add_one (c : Prop) [Decidable c] (n : ℕ) :
    (if c then n + 1 else n) = n + (if c then 1 else 0) := by
  split_ifs <;> simp

theorem set_keyframe_false_eq (s : KFData) (a : String) (t : ℚ) (v : List ℝ)
    (pcp pocp : Option (List ℝ)) :
    set_keyframe s a t v pcp pocp false =
      ⟨alist_upsert a
          (alist_upsert t ⟨v, pcp, pocp⟩ ((alist_lookup a s.attribs).getD []))
          s.attribs,
        s.camera,
        (if s.attrib_interps.contains a then s.attrib_interps
          else a :: s.attrib_interps),
        s.camera_interps, s.is_camera_animated,
        (if s.final_timestamp < t then t else s.final_timestamp),
        (if 0 < t then s.forced_updates + 1 else s.forced_updates),
        s.warn_count⟩ := rfl

theorem set_keyframe_true_eq (s : KFData) (a : String) (t : ℚ) (v : List ℝ)
    (pcp pocp : Option (List ℝ)) :
    set_keyframe s a t v pcp pocp true =
      ⟨s.attribs,
        alist_upsert a
          (alist_upsert t ⟨v, pcp, pocp⟩ ((alist_lookup a s.camera).getD []))
          s.camera,
        s.attrib_interps,
        (if s.camera_interps.contains a then s.camera_interps
          else a :: s.camera_interps),
        true,
        (if s.final_timestamp < t then t else s.final_timestamp),
        (if 0 < t then s.forced_updates + 1 else s.forced_updates),
        s.warn_count⟩ := rfl

/-- C7: `set_keyframe` writes the sample into the selected namespace
(retrievable at the attribute and timestamp, the other namespace untouched),
makes the attribute interpolatable (creating its channel and interpolator on
first use), raises the cached final timestamp to `t` exactly when `t`
exceeds it, and forces exactly one immediate animation update exactly when
`t > 0`. -/
theorem set_keyframe_spec (s : KFData) (a : String) (t : ℚ) (v : List ℝ)
    (pcp pocp : Option (List ℝ)) (cam : Bool) :
    lookup_keyframe (set_keyframe s a t v pcp pocp cam) cam a t = some ⟨v, pcp, pocp⟩ ∧
    is_interpolatable (set_keyframe s a t v pcp pocp cam) a cam = true ∧
    (set_keyframe s a t v pcp pocp cam).final_timestamp = max s.final_timestamp t ∧
    (set_keyframe s a t v pcp pocp cam).forced_updates =
      s.forced_updates + (if 0 < t then 1 else 0) ∧
    (cam = true → (set_keyframe s a t v pcp pocp cam).attribs = s.attribs ∧
      (set_keyframe s a t v pcp pocp cam).attrib_interps = s.attrib_interps) ∧
    (cam = false → (set_keyframe s a t v pcp pocp cam).camera = s.camera ∧
      (set_keyframe s a t v pcp pocp cam).camera_interps = s.camera_interps) := by
  cases cam
  · rw [set_keyframe_false_eq]
    refine ⟨?_, ?_, ?_, ?_, ?_, ?_⟩
    · simp [lookup_keyframe, alist_lookup_upsert_self]
    · exact contains_after_create _ _
    · exact if_lt_eq_max _ _
    · exact if_add_one _ _
    · simp
    · exact fun _ => ⟨rfl, rfl⟩
  · rw [set_keyframe_true_eq]
    refine ⟨?_, ?_, ?_, ?_, ?_, ?_⟩
    · simp [lookup_keyframe, alist_lookup_upsert_self]
    · exact contains_after_create _ _
    · exact if_lt_eq_max _ _
    · exact if_add_one _ _
    · exact fun _ => ⟨rfl, rfl⟩
    · simp

/-- Witness for C7: a position keyframe at timestamp 2 on a fresh store is
retrievable, the camera namespace stays untouched, the final timestamp rises
to 2 and one update is forced. -/
theorem set_keyframe_spec_witness :
    lookup_keyframe (set_keyframe empty_kfdata "position" 2 [1, 2, 3] none none false)
      false "position" 2 = some ⟨[1, 2, 3], none, none⟩ ∧
    is_interpolatable (set_keyframe empty_kfdata "position" 2 [1, 2, 3] none none false)
      "position" false = true ∧
    (set_keyframe empty_kfdata "position" 2 [1, 2, 3] none none false).camera =
      empty_kfdata.camera ∧
    (set_keyframe empty_kfdata "position" 2 [1, 2, 3] none none false).camera_interps =
      empty_kfdata.camera_interps :=
  ⟨(set_keyframe_spec empty_kfdata "position" 2 [1, 2, 3] none none false).1,
   (set_keyframe_spec empty_kfdata "position" 2 [1, 2, 3] none none false).2.1,
   ((set_keyframe_spec empty_kfdata "position" 2 [1, 2, 3] none none false).2.2.2.2.2
     rfl).1,
   ((set_keyframe_spec empty_kfdata "position" 2 [1, 2, 3] none none false).2.2.2.2.2
     rfl).2⟩

/-- C8: `set_rotation` with a flattened component count that is neither 3
nor 4 warns and skips: the whole state is unchanged except for the recorded
warning (in particular no keyframe store, final timestamp or forced update
is touched), and the total Lean function models the absence of any raised
exception. -/
theorem set_rotation_invalid_arity (s : KFData) (t : ℚ) (r : List ℝ)
    (h3 : r.length ≠ 3) (h4 : r.length ≠ 4) :
    set_rotation s t r = { s with warn_count := s.warn_count + 1 } := by
  rcases r with _ | ⟨a, _ | ⟨b, _ | ⟨c, _ | ⟨d, _ | ⟨e, rest⟩⟩⟩⟩⟩
  · rfl
  · rfl
  · rfl
  · exact absurd rfl h3
  · exact absurd rfl h4
  · rfl

/-- Witness for C8: a 5-component rotation value is skipped with a warning
and the store is untouched. -/
theorem set_rotation_invalid_arity_witness :
    ([1, 2, 3, 4, 5] : List ℝ).length ≠ 3 ∧
    ([1, 2, 3, 4, 5] : List ℝ).length ≠ 4 ∧
    set_rotation empty_kfdata 1 [1, 2, 3, 4, 5] =
      { empty_kfdata with warn_count := empty_kfdata.warn_count + 1 } :=
  ⟨by decide, by decide,
    set_rotation_invalid_arity empty_kfdata 1 [1, 2, 3, 4, 5] (by decide) (by decide)⟩

theorem euler_quat_value :
    euler_deg_to_quat_list 0 0 90 =
      [0, 0, Real.sqrt 2 / 2, Real.sqrt 2 / 2] := by
  have h90 : deg_to_rad 90 / 2 = Real.pi / 4 := by
    unfold deg_to_rad; ring
  have h0 : deg_to_rad 0 / 2 = 0 := by
    unfold deg_to_rad; ring
  unfold euler_deg_to_quat_list from_euler_zxy_deg qmul qx qy qz
  rw [h90, h0]
  simp [Real.sin_zero, Real.cos_zero, Real.sin_pi_div_four, Real.cos_pi_div_four]

theorem atan2_one_zero : atan2 1 0 = Real.pi / 2 := by
  unfold atan2
  rw [if_neg (lt_irrefl 0), if_neg (lt_irrefl 0), if_pos one_pos]

theorem atan2_zero_one : atan2 0 1 = 0 := by
  unfold atan2
  rw [if_pos one_pos]
  simp [Real.arctan_zero]

theorem rad_to_deg_zero : rad_to_deg 0 = 0 := by
  unfold rad_to_deg
  simp

theorem rad_to_deg_half_pi : rad_to_deg (Real.pi / 2) = 90 := by
  unfold rad_to_deg
  field_simp
  ring

theorem quat_euler_value :
    quat_to_euler_zxy_deg 0 0 (Real.sqrt 2 / 2) (Real.sqrt 2 / 2) = [0, 0, 90] := by
  have hs2 : Real.sqrt 2 * Real.sqrt 2 = 2 := Real.mul_self_sqrt (by norm_num)
  have h12 : Real.sqrt 2 / 2 * (Real.sqrt 2 / 2) = 1 / 2 := by
    rw [div_mul_div_comm, hs2]; norm_num
  have hn : qnorm 0 0 (Real.sqrt 2 / 2) (Real.sqrt 2 / 2) = 1 := by
    unfold qnorm
    rw [show (0 : ℝ) * 0 + 0 * 0 + Real.sqrt 2 / 2 * (Real.sqrt 2 / 2) +
      Real.sqrt 2 / 2 * (Real.sqrt 2 / 2) = 1 by rw [h12]; norm_num]
    exact Real.sqrt_one
  unfold quat_to_euler_zxy_deg
  rw [hn]
  simp only [div_one]
  unfold quat_to_euler_zxy_rad
  rw [show (2 : ℝ) * (0 * 0 + Real.sqrt 2 / 2 * (Real.sqrt 2 / 2)) = 1 by
    rw [h12]; norm_num]
  rw [show (1 : ℝ) - 1 = 0 by norm_num]
  rw [show -((2 : ℝ) * (0 * (Real.sqrt 2 / 2) - 0 * (Real.sqrt 2 / 2))) = 0 by
    norm_num]
  rw [show (2 : ℝ) * (0 * (Real.sqrt 2 / 2) + 0 * (Real.sqrt 2 / 2)) = 0 by
    norm_num]
  rw [show (1 : ℝ) - 2 * (0 * 0 + 0 * 0) = 1 by norm_num]
  simp [atan2_one_zero, atan2_zero_one, Real.arcsin_zero,
    rad_to_deg_zero, rad_to_deg_half_pi]

/-- C9: Euler-quaternion round trip for the non-trivial rotation of 90
degrees about the z axis: `set_rotation(3, [0, 0, 90])` normalizes the
3-component Euler-degree input to a quaternion at write time under the
fixed zxy convention, and `get_rotation(3)` at the keyframe's timestamp
returns the same Euler angles. -/
theorem rotation_round_trip :
    get_rotation (set_rotation empty_kfdata 3 [0, 0, 90]) 3 = some [0, 0, 90] ∧
    ([0, 0, 90] : List ℝ) ≠ [0, 0, 0] := by
  constructor
  · have hs : set_rotation empty_kfdata 3 [0, 0, 90] =
        set_keyframe empty_kfdata "rotation" 3
          [0, 0, Real.sqrt 2 / 2, Real.sqrt 2 / 2] none none false := by
      show set_keyframe empty_kfdata "rotation" 3 (euler_deg_to_quat_list 0 0 90)
        none none false = _
      rw [euler_quat_value]
    rw [hs, set_keyframe_false_eq]
    norm_num [get_rotation, get_value, empty_kfdata, alist_lookup,
      alist_upsert, interpolate_linear, sort_by_time, insert_by_time, floor_kf,
      ceil_kf, quat_euler_value]
  · simp only [ne_eq, List.cons.injEq, and_true]
    norm_num

end Fury
